import Mathlib

/-!
Verification of the JSON-to-model hydration engine of the serpcord library
(`serpcord/utils/model.py`).  The engine converts loosely-typed JSON payloads
into model constructor calls: it resolves deferred type annotations, normalizes
generic and union type expressions, runs an ordered chain of value coercions
(nested model hydration, collections of models, ISO-8601 timestamps,
pass-through), optionally type-checks converted values, and finally partitions
the accepted values into positional and keyword arguments for the target's
constructor.

The embedding below mirrors the Python source closely:

* `PyVal` models the runtime JSON/domain values the engine manipulates
  (model instances are `vmodel cls payload`, the live client is `vclient`).
* `PyClass` models runtime classes; `PyAnnot` models evaluated type
  annotations (a plain class, a subscripted generic alias, or a union);
  mirroring the typing module's own union flattening, members of a
  `PyAnnot.union` are themselves never unions.
* `PyErr` models the exceptions the engine raises or wraps.  The library's
  exception hierarchy is APIDataParseException > APIJsonParseException >
  APIJsonParsedTypeMismatchException; builtin errors (TypeError, ValueError,
  AttributeError, IndexError, NameError, NotImplementedError) are separate.
* Nested model hydration (`Model._from_json_data`) is a recursive call back
  into each model's own entry point; the engine functions take it as an
  explicit argument `hyd : Nat → PyVal → Except PyErr PyVal` indexed by the
  model class.  Likewise the target constructor call `cls(*args, **kwargs)`
  is an explicit argument `ctor`.
-/

inductive PyVal where
  | vnone : PyVal
  | vbool (b : Bool) : PyVal
  | vint (n : Int) : PyVal
  | vstr (s : String) : PyVal
  | vdatetime (iso : String) : PyVal
  | vlist (xs : List PyVal) : PyVal
  | vdict (entries : List (String × PyVal)) : PyVal
  | vmodel (cls : Nat) (data : PyVal) : PyVal
  | vclient : PyVal

/-- Runtime classes relevant to the engine.  `cmodel id` is a subclass of
`JsonAPIModel`; `cbotclient` is the `BotClient` class (not a model). -/
inductive PyClass where
  | cnone : PyClass
  | cbool : PyClass
  | cint : PyClass
  | cstr : PyClass
  | cdatetime : PyClass
  | clist : PyClass
  | cdict : PyClass
  | ctuple : PyClass
  | cbotclient : PyClass
  | cmodel (id : Nat) : PyClass
  deriving DecidableEq, Repr

/-- An evaluated type annotation: a plain class, a subscripted generic alias
`C[T1, ...]` (a `typing._GenericAlias` whose origin is a class), or a union.
Union members are never themselves unions (the typing module flattens nested
unions, as the source notes). -/
inductive PyAnnot where
  | cls (c : PyClass) : PyAnnot
  | generic (origin : PyClass) (args : List PyAnnot) : PyAnnot
  | union (cands : List PyAnnot) : PyAnnot

mutual

/-- Structural equality of annotation objects (Python `==` on type objects,
used by the `in` membership tests of the type-check policy tuples). -/
def annotBeq : PyAnnot → PyAnnot → Bool
  | .cls a, .cls b => a = b
  | .generic o1 a1, .generic o2 a2 => (decide (o1 = o2)) && annotListBeq a1 a2
  | .union a1, .union a2 => annotListBeq a1 a2
  | _, _ => false

/-- Pointwise equality of annotation lists. -/
def annotListBeq : List PyAnnot → List PyAnnot → Bool
  | [], [] => true
  | x :: xs, y :: ys => annotBeq x y && annotListBeq xs ys
  | _, _ => false

end

/-- Result of `_typing_generic_converter`: either a single type-like object or
a tuple of annotation objects (the converter never produces nested tuples
because union members are never unions). -/
inductive PyTypeObj where
  | ann (t : PyAnnot) : PyTypeObj
  | tup (ts : List PyAnnot) : PyTypeObj

/-- Exceptions.  `apiJsonParse` is APIJsonParseException (the spec's
DataParseError) and `apiTypeMismatch` is APIJsonParsedTypeMismatchException
(the spec's TypeMismatchError); both are APIDataParseException subclasses and
both optionally chain a cause (`raise ... from e`). -/
inductive PyErr where
  | typeError (msg : String) : PyErr
  | valueError (msg : String) : PyErr
  | attributeError (msg : String) : PyErr
  | indexError (msg : String) : PyErr
  | nameError (name : String) : PyErr
  | notImplementedError (msg : String) : PyErr
  | apiJsonParse (msg : String) (cause : Option PyErr) : PyErr
  | apiTypeMismatch (msg : String) (cause : Option PyErr) : PyErr

/-- `isinstance(e, APIDataParseException)` for our error values. -/
def PyErr.isAPIDataParse : PyErr → Bool
  | .apiJsonParse _ _ => true
  | .apiTypeMismatch _ _ => true
  | _ => false

/-- Parameter kinds of `inspect.Parameter`. -/
inductive ParamKind where
  | positionalOnly : ParamKind
  | positionalOrKeyword : ParamKind
  | varPositional : ParamKind
  | keywordOnly : ParamKind
  | varKeyword : ParamKind
  deriving DecidableEq, Repr

/-- One constructor parameter as reflected by `inspect.signature`. -/
structure Param where
  name : String
  kind : ParamKind
  deriving DecidableEq, Repr

/-- A raw (pre-evaluation) annotation on a constructor parameter: either an
already-evaluated type object, or a deferred string annotation that must be
evaluated against the merged name environment (we model the deferred
expression as a bare name, which is the shape the engine's callers use). -/
inductive RawAnnot where
  | direct (t : PyAnnot) : RawAnnot
  | deferred (name : String) : RawAnnot

/-- `isinstance(v, c)` for a single class.  `bool` is a subclass of `int` in
Python, and distinct model classes are unrelated. -/
def isinst (v : PyVal) (c : PyClass) : Bool :=
  match v, c with
  | .vnone, .cnone => true
  | .vbool _, .cbool => true
  | .vbool _, .cint => true
  | .vint _, .cint => true
  | .vstr _, .cstr => true
  | .vdatetime _, .cdatetime => true
  | .vlist _, .clist => true
  | .vdict _, .cdict => true
  | .vmodel m _, .cmodel m2 => m = m2
  | .vclient, .cbotclient => true
  | _, _ => false

/-- `issubclass(c, collections.abc.Mapping)`. -/
def isMappingClass : PyClass → Bool
  | .cdict => true
  | _ => false

/-- `issubclass(c, collections.abc.Iterable)`. -/
def isIterableClass : PyClass → Bool
  | .clist => true
  | .cdict => true
  | .cstr => true
  | .ctuple => true
  | _ => false

/-- `issubclass(c, str)`. -/
def isStrClass : PyClass → Bool
  | .cstr => true
  | _ => false

/-- `issubclass(c, datetime.datetime)`. -/
def isDatetimeClass : PyClass → Bool
  | .cdatetime => true
  | _ => false

/-- `issubclass(c, JsonAPIModel)`. -/
def isModelClass : PyClass → Bool
  | .cmodel _ => true
  | _ => false

/-- `isinstance(v, collections.abc.Mapping)`. -/
def pyMapping : PyVal → Bool
  | .vdict _ => true
  | _ => false

/-- `isinstance(v, collections.abc.Iterable)`: lists, dicts and strings are
iterable at runtime. -/
def pyIterable : PyVal → Bool
  | .vlist _ => true
  | .vdict _ => true
  | .vstr _ => true
  | _ => false

/-- Iterating a runtime value: a list yields its elements, a dict yields its
keys, a string yields its one-character substrings. -/
def pyIter : PyVal → List PyVal
  | .vlist xs => xs
  | .vdict es => es.map (fun e => .vstr e.fst)
  | .vstr s => s.data.map (fun c => .vstr (String.singleton c))
  | _ => []

/-- Simplification of a single union member inside `_typing_generic_converter`
(its recursive call): a subscripted generic `C[T]` reduces to its origin `C`;
anything else is returned unchanged.  Union members are never unions, so the
recursion never produces a nested tuple. -/
def simplifyMember : PyAnnot → PyAnnot
  | .generic origin _ => .cls origin
  | t => t

/-- `_typing_generic_converter(T, recursive=...)` from the source: a union
becomes the tuple of its members (each member simplified when `recursive` is
true); a subscripted generic `C[T]` becomes its non-subscripted origin `C`;
everything else is returned unchanged. -/
def typingGenericConverter (T : PyAnnot) (recursive : Bool) : PyTypeObj :=
  match T with
  | .union args => if recursive then .tup (args.map simplifyMember) else .tup args
  | .generic origin _ => .ann (.cls origin)
  | t => .ann t

/-- `typing.get_args`: the inner parameters of a generic alias or union;
the empty tuple for plain classes. -/
def typingGetArgs : PyAnnot → List PyAnnot
  | .generic _ args => args
  | .union args => args
  | .cls _ => []

/-- `_safe_index(obj, index)` from the source, at its two call sites (where
`obj` is always the tuple returned by `typing.get_args`): `obj[index]`
suppressing only TypeError.  Indexing a tuple out of range raises IndexError,
which the `except TypeError` clause does not catch, so it propagates. -/
def safeIndex (obj : List PyAnnot) (index : Nat) : Except PyErr PyAnnot :=
  match obj.get? index with
  | some t => .ok t
  | none => .error (.indexError "tuple index out of range")

/-- `_safe_issubclass(t, B)` where `B` is described by the predicate `p` on
classes: `issubclass` raises TypeError when the first argument is not a class
(a tuple or a generic alias), which `_safe_issubclass` turns into `False`. -/
def safeIssubclass (t : PyTypeObj) (p : PyClass → Bool) : Bool :=
  match t with
  | .ann (.cls c) => p c
  | _ => false

/-- `isinstance(v, t)` where `t` is a single annotation object: succeeds on a
class, raises TypeError otherwise (e.g. on a generic alias). -/
def isinstAnnot (v : PyVal) (t : PyAnnot) : Except PyErr Bool :=
  match t with
  | .cls c => .ok (isinst v c)
  | _ => .error (.typeError "isinstance() arg 2 must be a type or tuple of types")

/-- `isinstance(v, ts)` against a tuple: true when some member matches,
checking members left to right. -/
def isinstTuple (v : PyVal) : List PyAnnot → Except PyErr Bool
  | [] => .ok false
  | t :: rest =>
    match isinstAnnot v t with
    | .error e => .error e
    | .ok true => .ok true
    | .ok false => isinstTuple v rest

/-- `isinstance(v, t)` where `t` is the result of `_typing_generic_converter`
(a type or a tuple of types). -/
def isinstObj (v : PyVal) : PyTypeObj → Except PyErr Bool
  | .ann t => isinstAnnot v t
  | .tup ts => isinstTuple v ts

/-- `isinstance(t, type)` for an annotation object: a plain class is a type;
generic aliases and unions are not. -/
def annotIsType : PyAnnot → Bool
  | .cls _ => true
  | _ => false

/-- The annotation object, when it is a plain JsonAPIModel subclass: this is
the combined test `isinstance(x, type) and issubclass(x, JsonAPIModel)`. -/
def asModelClass : PyAnnot → Option Nat
  | .cls (.cmodel m) => some m
  | _ => none

/-- The converter result, when it is a plain JsonAPIModel subclass. -/
def typeObjAsModel : PyTypeObj → Option Nat
  | .ann (.cls (.cmodel m)) => some m
  | _ => none

/-- Shallow model of `datetime.datetime.fromisoformat`: we accept exactly
calendar-date strings of the shape `YYYY-MM-DD` (all digits, dashes at
positions 4 and 7) and reject everything else with ValueError.  The real
parser accepts more shapes; only the valid/invalid split matters here. -/
def isIsoDateChar (i : Nat) (c : Char) : Bool :=
  if i = 4 || i = 7 then c = '-' else c.isDigit

/-- Validity test used by the `fromisoformat` model. -/
def isIsoDate (s : String) : Bool :=
  s.length = 10 && (s.data.enum.all fun p => isIsoDateChar p.fst p.snd)

/-- `datetime.datetime.fromisoformat(s)`: the parsed datetime, or ValueError. -/
def fromisoformat (s : String) : Except PyErr PyVal :=
  if isIsoDate s then .ok (.vdatetime s)
  else .error (.valueError "Invalid isoformat string")

/-- `_parse_datetime_from_json_iso_str`: parse an ISO-8601 string, wrapping a
TypeError/ValueError from the parser into APIJsonParseException with the
original error chained as cause. -/
def parseDatetimeFromJsonIsoStr (datestr : String) : Except PyErr PyVal :=
  match fromisoformat datestr with
  | .ok d => .ok d
  | .error e => .error (.apiJsonParse "Invalid ISO8601 datetime received." (some e))

/-- Hydrating every element of an iterated value in order (the list
comprehension in the Iterable-of-models branch); the first failure
propagates. -/
def hydrateEach (hyd : Nat → PyVal → Except PyErr PyVal) (m : Nat) :
    List PyVal → Except PyErr (List PyVal)
  | [] => .ok []
  | x :: rest =>
    match hyd m x with
    | .error e => .error e
    | .ok y =>
      match hydrateEach hyd m rest with
      | .error e => .error e
      | .ok ys => .ok (y :: ys)

/-- Hydrating every value of a mapping, preserving keys and order (the dict
comprehension in the Mapping-of-models branch). -/
def hydrateVals (hyd : Nat → PyVal → Except PyErr PyVal) (m : Nat) :
    List (String × PyVal) → Except PyErr (List (String × PyVal))
  | [] => .ok []
  | e :: rest =>
    match hyd m e.snd with
    | .error er => .error er
    | .ok y =>
      match hydrateVals hyd m rest with
      | .error er => .error er
      | .ok ys => .ok ((e.fst, y) :: ys)

/-- String payload of a `vstr` (used under a guard that the value is a
string). -/
def strOf : PyVal → String
  | .vstr s => s
  | _ => ""

/-- Dict payload of a `vdict` (used under a guard that the value is a
mapping). -/
def entriesOf : PyVal → List (String × PyVal)
  | .vdict es => es
  | _ => []

/-- `_default_converters(value, client=..., annotated_type=...,
raise_not_implemented=...)` from the source, with nested model hydration
supplied as `hyd`.  Both `_safe_index` calls run unconditionally before any
branch, so an annotation with fewer than two type arguments raises IndexError
here.  The branches, in order: mapping of models, iterable (non-string) of
models, ISO-8601 datetime string, direct model hydration (skipped when the
value is already an instance), and otherwise NotImplementedError or
pass-through. -/
def defaultConverters (hyd : Nat → PyVal → Except PyErr PyVal) (value : PyVal)
    (annotated_type : PyAnnot) (raise_not_implemented : Bool) :
    Except PyErr PyVal :=
  let converted_type := typingGenericConverter annotated_type true
  match safeIndex (typingGetArgs annotated_type) 0 with
  | .error e => .error e
  | .ok first_generic_index =>
    match safeIndex (typingGetArgs annotated_type) 1 with
    | .error e => .error e
    | .ok second_generic_index =>
      if safeIssubclass converted_type isMappingClass
          && (asModelClass second_generic_index).isSome && pyMapping value then
        match hydrateVals hyd ((asModelClass second_generic_index).getD 0) (entriesOf value) with
        | .error e => .error e
        | .ok es => .ok (.vdict es)
      else if safeIssubclass converted_type isIterableClass
          && !safeIssubclass converted_type isStrClass
          && (asModelClass first_generic_index).isSome && pyIterable value then
        match hydrateEach hyd ((asModelClass first_generic_index).getD 0) (pyIter value) with
        | .error e => .error e
        | .ok xs => .ok (.vlist xs)
      else if safeIssubclass converted_type isDatetimeClass && isinst value .cstr then
        parseDatetimeFromJsonIsoStr (strOf value)
      else if (typeObjAsModel converted_type).isSome
          && !(isinst value (.cmodel ((typeObjAsModel converted_type).getD 0))) then
        hyd ((typeObjAsModel converted_type).getD 0) value
      else if raise_not_implemented then
        .error (.notImplementedError "No default converter found.")
      else
        .ok value

/-- Message of the APIJsonParseException raised when every union candidate is
a model type and all conversion attempts failed. -/
def unionFailMsg : String := "Unexpected JSON data received: failed to parse to any expected type."

/-- Message of the APIJsonParsedTypeMismatchException raised by the type
check, carrying the offending key. -/
def mismatchMsg (k : String) : String :=
  "Unexpected JSON data received: type mismatch. Key: " ++ k

/-- Exceptions in the union loop that the source catches and records as the
last structural failure: `except (APIDataParseException, TypeError)`. -/
def caughtInUnionLoop : PyErr → Bool
  | .typeError _ => true
  | e => e.isAPIDataParse

/-- The candidate loop of the sum-type branch (source lines 545-579).  State:
the remaining candidates, the last structural failure seen, and whether a
non-JsonAPIModel candidate was reached at the instance-probe stage.  For each
candidate: a successful default conversion breaks with the converted value; a
NotImplementedError falls through to the instance probe, where a value already
of the candidate type breaks with the value unchanged and a non-model
candidate marks the escape hatch; an APIDataParseException or TypeError is
recorded and the loop continues; any other exception (such as IndexError)
propagates.  When no candidate breaks: if no escape hatch was marked, raise
APIJsonParseException chaining the last failure; otherwise leave the value
uncoerced. -/
def unionLoop (hyd : Nat → PyVal → Except PyErr PyVal) (v : PyVal) :
    List PyAnnot → Option PyErr → Bool → Except PyErr PyVal
  | [], lastError, hasNonModel =>
    if hasNonModel then .ok v
    else .error (.apiJsonParse unionFailMsg lastError)
  | possibleType :: rest, lastError, hasNonModel =>
    match defaultConverters hyd v possibleType true with
    | .ok setValue => .ok setValue
    | .error e =>
      match e with
      | .notImplementedError _ =>
        match typingGenericConverter possibleType true with
        | .ann (.cls c) =>
          if isinst v c then .ok v
          else unionLoop hyd v rest lastError (hasNonModel || !isModelClass c)
        | _ => unionLoop hyd v rest lastError hasNonModel
      | _ =>
        if caughtInUnionLoop e then unionLoop hyd v rest (some e) hasNonModel
        else .error e

/-- Per-field configuration shared by the whole hydration call: the nested
hydration entry points, the evaluated annotations, the custom converters and
the type-check policy (`type_check_types` resolved into the `is True` flag and
the iterable-to-tuple form, `type_check_except` into a tuple). -/
structure FieldCfg where
  hyd : Nat → PyVal → Except PyErr PyVal
  annots : List (String × PyAnnot)
  converters : List (String × (PyVal → PyVal))
  tctIsTrue : Bool
  tctTuple : List PyAnnot
  tceTuple : List PyAnnot

/-- Membership of an annotation in a policy tuple (the `in` tests of the
type-check condition). -/
def annotMem (t : PyAnnot) : List PyAnnot → Bool
  | [] => false
  | u :: rest => annotBeq t u || annotMem t rest

/-- Processing of one accepted `(key, renamed, value)` triple (source lines
526-600): look up the annotation and the custom converter; a custom converter
replaces the whole default conversion; otherwise a union annotation runs the
candidate loop and any other annotation runs the default converters directly;
finally the optional type check compares the converted value against the
recursively simplified annotation and raises
APIJsonParsedTypeMismatchException on failure.  A field without an annotation
is passed through without conversion or type check. -/
def processField (cfg : FieldCfg) (k renamed : String) (v : PyVal) :
    Except PyErr PyVal :=
  let customConverter := cfg.converters.lookup renamed
  let setValue0 := match customConverter with
    | some f => f v
    | none => v
  match cfg.annots.lookup renamed with
  | none => .ok setValue0
  | some possibleJsonModel =>
    let convertedType := typingGenericConverter possibleJsonModel true
    let nonRecursive := typingGenericConverter possibleJsonModel false
    let converted : Except PyErr PyVal :=
      if customConverter.isSome then .ok setValue0
      else
        match nonRecursive with
        | .tup cands => unionLoop cfg.hyd v cands none false
        | _ => defaultConverters cfg.hyd v possibleJsonModel false
    match converted with
    | .error e => .error e
    | .ok setValue =>
      if !annotMem possibleJsonModel cfg.tceTuple
          && (cfg.tctIsTrue || annotMem possibleJsonModel cfg.tctTuple) then
        match isinstObj setValue convertedType with
        | .error e => .error e
        | .ok true => .ok setValue
        | .ok false => .error (.apiTypeMismatch (mismatchMsg k) none)
      else .ok setValue

/-- Name environment for evaluating deferred annotations.  The source builds
`actual_extra_globals` as the caller's extra globals with `BotClient` merged
on top, merges them over the init function's module globals
(`merge_globals_locals=True` in `_get_annotation_port`), and passes the
caller's extra locals through unchanged (the init function itself supplies no
locals).  `eval` resolves a name in locals first, then globals. -/
structure NameEnv where
  moduleGlobals : List (String × PyAnnot)
  extraGlobals : List (String × PyAnnot)
  extraLocals : Option (List (String × PyAnnot))

/-- Resolution of a bare name by `eval`: locals, then the merged globals
(extra globals, with `BotClient` always bound, over module globals); an
unbound name raises NameError. -/
def lookupName (env : NameEnv) (n : String) : Except PyErr PyAnnot :=
  match (env.extraLocals.getD []).lookup n with
  | some t => .ok t
  | none =>
    if n = "BotClient" then .ok (.cls .cbotclient)
    else
      match env.extraGlobals.lookup n with
      | some t => .ok t
      | none =>
        match env.moduleGlobals.lookup n with
        | some t => .ok t
        | none => .error (.nameError n)

/-- `_get_annotation_port(init, eval_str=True, ...)`: build the evaluated
annotation dict, evaluating each deferred (string) annotation against the
merged environment; the first evaluation failure aborts with its error. -/
def evalAnnotations (env : NameEnv) :
    List (String × RawAnnot) → Except PyErr (List (String × PyAnnot))
  | [] => .ok []
  | (p, .direct t) :: rest =>
    match evalAnnotations env rest with
    | .error e => .error e
    | .ok anns => .ok ((p, t) :: anns)
  | (p, .deferred n) :: rest =>
    match lookupName env n with
    | .error e => .error e
    | .ok t =>
      match evalAnnotations env rest with
      | .error e => .error e
      | .ok anns => .ok ((p, t) :: anns)

/-- Python dict assignment `d[k] = v` on an insertion-ordered dict: replace
the value in place when the key is present, otherwise append the new entry. -/
def dictSet : List (String × PyVal) → String → PyVal → List (String × PyVal)
  | [], k, v => [(k, v)]
  | e :: rest, k, v =>
    if e.fst = k then (k, v) :: rest else e :: dictSet rest k v

/-- `full_receiving_data = {**json_data, "client": client}`: the synthetic
client entry is merged over the payload, overriding any payload value under
the key `client`. -/
def fullReceivingData (entries : List (String × PyVal)) : List (String × PyVal) :=
  dictSet entries "client" .vclient

/-- `rename.get(k, k) if rename is not None else k`. -/
def renameKey (rename : Option (List (String × String))) (k : String) : String :=
  match rename with
  | none => k
  | some m => (m.lookup k).getD k

/-- `accepts_kwargs`: the target's constructor declares a `**kwargs`
parameter. -/
def acceptsKwargs (params : List Param) : Bool :=
  params.any fun p =>
    match p.kind with
    | .varKeyword => true
    | _ => false

/-- Whether a renamed key is accepted: either the constructor takes arbitrary
keyword arguments, or the name is one of its parameters (source line 525). -/
def acceptedCond (params : List Param) (renamed : String) : Bool :=
  acceptsKwargs params || params.any fun p => p.name = renamed

/-- The main per-field loop (source lines 523-600): iterate over the merged
receiving dict in insertion order; rename each key; skip unaccepted names;
process each accepted field (conversion plus optional type check) and store
the result in `received_params` under the renamed key. -/
def receivedParamsGo (params : List Param) (rename : Option (List (String × String)))
    (cfg : FieldCfg) :
    List (String × PyVal) → List (String × PyVal) →
    Except PyErr (List (String × PyVal))
  | [], acc => .ok acc
  | (k, v) :: rest, acc =>
    if acceptedCond params (renameKey rename k) then
      match processField cfg k (renameKey rename k) v with
      | .error e => .error e
      | .ok setValue =>
        receivedParamsGo params rename cfg rest (dictSet acc (renameKey rename k) setValue)
    else
      receivedParamsGo params rename cfg rest acc

/-- Message of the TypeError raised when a received key binds to a
variadic-positional parameter while `**kwargs` is also declared. -/
def bothVariadicsMsg : String :=
  "*args and **kwargs simultaneously in JsonAPIModel init is forbidden."

/-- Message of the TypeError raised by `pos_args.append(*received_val)` when
the unpacked sequence does not have exactly one element. -/
def appendStarMsg : String :=
  "append() takes exactly one argument"

/-- Merging a dict value into the keyword mapping (`kwargs.update(v)`). -/
def kwargsUpdate (kw : List (String × PyVal)) : List (String × PyVal) → List (String × PyVal)
  | [] => kw
  | e :: rest => kwargsUpdate (dictSet kw e.fst e.snd) rest

/-- Argument partition when the constructor accepts `**kwargs` (source lines
604-620): iterate over the received params in insertion order; a
positional-only parameter value goes to the positional list; a value bound to
the variadic-positional parameter raises TypeError; a value bound to the
variadic-keyword parameter is merged when it is a mapping and stored under its
own name otherwise; everything else, including names that are not parameters,
goes to the keyword mapping. -/
def bindArgsKw (params : List Param) :
    List (String × PyVal) → List PyVal → List (String × PyVal) →
    Except PyErr (List PyVal × List (String × PyVal))
  | [], posArgs, kwargs => .ok (posArgs, kwargs)
  | (k, v) :: rest, posArgs, kwargs =>
    match params.find? (fun p => p.name = k) with
    | some p =>
      match p.kind with
      | .positionalOnly => bindArgsKw params rest (posArgs ++ [v]) kwargs
      | .varPositional => .error (.typeError bothVariadicsMsg)
      | .varKeyword =>
        match v with
        | .vdict es => bindArgsKw params rest posArgs (kwargsUpdate kwargs es)
        | _ => bindArgsKw params rest posArgs (dictSet kwargs k v)
      | _ => bindArgsKw params rest posArgs (dictSet kwargs k v)
    | none => bindArgsKw params rest posArgs (dictSet kwargs k v)

/-- Argument partition when the constructor does not accept `**kwargs`
(source lines 621-638): iterate over the parameters in declaration order;
positional-only and positional-or-keyword values are appended to the
positional list; a variadic-positional value is passed to
`pos_args.append(*value)` when iterable, which succeeds only for exactly one
element (`list.append` takes exactly one argument) and is appended as-is
otherwise; a variadic-keyword value is merged when it is a mapping and stored
under the parameter name otherwise; keyword-only values go to the keyword
mapping. -/
def bindArgsNoKw (received : List (String × PyVal)) :
    List Param → List PyVal → List (String × PyVal) →
    Except PyErr (List PyVal × List (String × PyVal))
  | [], posArgs, kwargs => .ok (posArgs, kwargs)
  | p :: rest, posArgs, kwargs =>
    match received.lookup p.name with
    | none => bindArgsNoKw received rest posArgs kwargs
    | some receivedVal =>
      match p.kind with
      | .positionalOnly => bindArgsNoKw received rest (posArgs ++ [receivedVal]) kwargs
      | .positionalOrKeyword => bindArgsNoKw received rest (posArgs ++ [receivedVal]) kwargs
      | .varPositional =>
        if pyIterable receivedVal then
          match pyIter receivedVal with
          | [x] => bindArgsNoKw received rest (posArgs ++ [x]) kwargs
          | _ => .error (.typeError appendStarMsg)
        else bindArgsNoKw received rest (posArgs ++ [receivedVal]) kwargs
      | .varKeyword =>
        match receivedVal with
        | .vdict es => bindArgsNoKw received rest posArgs (kwargsUpdate kwargs es)
        | _ => bindArgsNoKw received rest posArgs (dictSet kwargs p.name receivedVal)
      | .keywordOnly => bindArgsNoKw received rest posArgs (dictSet kwargs p.name receivedVal)

/-- The Field Binder dispatch (source lines 602-638). -/
def bindArgs (params : List Param) (received : List (String × PyVal)) :
    Except PyErr (List PyVal × List (String × PyVal)) :=
  if acceptsKwargs params then bindArgsKw params received [] []
  else bindArgsNoKw received params [] []

/-- Message of the exceptions wrapping a constructor failure. -/
def ctorFailMsg : String := "Unexpected JSON data received."

/-- The final constructor call `cls(*pos_args, **kwargs)` (source lines
640-645): TypeError and ValueError from the constructor are wrapped into
APIJsonParsedTypeMismatchException, AttributeError into APIJsonParseException,
each with the original error chained as cause; other outcomes pass through. -/
def constructTarget (ctor : List PyVal → List (String × PyVal) → Except PyErr PyVal)
    (posArgs : List PyVal) (kwargs : List (String × PyVal)) : Except PyErr PyVal :=
  match ctor posArgs kwargs with
  | .ok r => .ok r
  | .error (.typeError m) => .error (.apiTypeMismatch ctorFailMsg (some (.typeError m)))
  | .error (.valueError m) => .error (.apiTypeMismatch ctorFailMsg (some (.valueError m)))
  | .error (.attributeError m) => .error (.apiJsonParse ctorFailMsg (some (.attributeError m)))
  | .error e => .error e

/-- The `type_check_types` argument: `True`/`False`, or an iterable of type
annotations. -/
inductive TypeCheckTypes where
  | flag (b : Bool) : TypeCheckTypes
  | types (ts : List PyAnnot) : TypeCheckTypes

/-- `type_check_types is True`. -/
def TypeCheckTypes.isTrue : TypeCheckTypes → Bool
  | .flag true => true
  | _ => false

/-- `tuple(type_check_types) if isinstance(type_check_types, Iterable) else
tuple()`: a boolean is not iterable, so only the explicit list survives. -/
def TypeCheckTypes.toTuple : TypeCheckTypes → List PyAnnot
  | .types ts => ts
  | .flag _ => []

/-- All inputs of `_init_model_from_mapping_json_data` except the nested
hydration entry points and the target constructor call (which are function
arguments of `hydrate`): the reflected constructor signature (including
`self`), its raw annotations, the module globals of the defining module, the
JSON payload, and the keyword options of the engine. -/
structure HydrateInput where
  params : List Param
  rawAnnots : List (String × RawAnnot)
  moduleGlobals : List (String × PyAnnot)
  jsonData : PyVal
  rename : Option (List (String × String))
  typeCheckTypes : TypeCheckTypes
  typeCheckExcept : Option (List PyAnnot)
  converters : Option (List (String × (PyVal → PyVal)))
  extraGlobals : Option (List (String × PyAnnot))
  extraLocals : Option (List (String × PyAnnot))

/-- The merged name environment used to evaluate deferred annotations. -/
def mkNameEnv (inp : HydrateInput) : NameEnv :=
  { moduleGlobals := inp.moduleGlobals
    extraGlobals := inp.extraGlobals.getD []
    extraLocals := inp.extraLocals }

/-- The per-field configuration built by a hydration call once the
annotations are evaluated. -/
def hydrateCfg (hyd : Nat → PyVal → Except PyErr PyVal) (inp : HydrateInput)
    (annots : List (String × PyAnnot)) : FieldCfg :=
  { hyd := hyd
    annots := annots
    converters := inp.converters.getD []
    tctIsTrue := inp.typeCheckTypes.isTrue
    tctTuple := inp.typeCheckTypes.toTuple
    tceTuple := inp.typeCheckExcept.getD [] }

/-- Message of the APIJsonParsedTypeMismatchException raised when the
top-level payload is not a mapping. -/
def notMappingMsg : String :=
  "Unexpected JSON data received: expected dict or Mapping."

/-- `_init_model_from_mapping_json_data` (the engine's `hydrate` operation):
reject a non-mapping payload; evaluate the constructor annotations against
the merged name environment; run the per-field loop over the merged receiving
dict; partition the received params into positional and keyword arguments;
call the constructor, wrapping its TypeError/ValueError/AttributeError.
`hyd` supplies each model's `_from_json_data` and `ctor` the target
constructor call. -/
def hydrate (hyd : Nat → PyVal → Except PyErr PyVal)
    (ctor : List PyVal → List (String × PyVal) → Except PyErr PyVal)
    (inp : HydrateInput) : Except PyErr PyVal :=
  match inp.jsonData with
  | .vdict entries =>
    match evalAnnotations (mkNameEnv inp) inp.rawAnnots with
    | .error e => .error e
    | .ok annots =>
      match receivedParamsGo inp.params inp.rename (hydrateCfg hyd inp annots)
          (fullReceivingData entries) [] with
      | .error e => .error e
      | .ok receivedParams =>
        match bindArgs inp.params receivedParams with
        | .error e => .error e
        | .ok pk => constructTarget ctor pk.fst pk.snd
  | _ => .error (.apiTypeMismatch notMappingMsg none)

/-- A nested-hydration oracle whose entry points always fail structurally
(used where the claims do not depend on nested model behaviour). -/
def failHyd : Nat → PyVal → Except PyErr PyVal :=
  fun _ _ => .error (.apiJsonParse "nested model parse failed" none)

/-- A constructor call that succeeds and records the keyword arguments it was
bound with, so theorems can observe the final binding. -/
def kwEchoCtor : List PyVal → List (String × PyVal) → Except PyErr PyVal :=
  fun _ kwargs => .ok (.vdict kwargs)

/-- Packaging of the engine arguments used by the concrete scenarios: empty
module globals, no custom converters, no type-check exceptions, no extra name
environment. -/
def mkInput (params : List Param) (rawAnnots : List (String × RawAnnot))
    (jsonData : PyVal) (rename : Option (List (String × String)))
    (tct : TypeCheckTypes) : HydrateInput :=
  { params := params
    rawAnnots := rawAnnots
    moduleGlobals := []
    jsonData := jsonData
    rename := rename
    typeCheckTypes := tct
    typeCheckExcept := none
    converters := none
    extraGlobals := none
    extraLocals := none }

/-- Target with one field `x` declared as the union of two model classes,
receiving a primitive value matching neither. -/
def unionFieldInput : HydrateInput :=
  mkInput [⟨"self", .positionalOrKeyword⟩, ⟨"x", .positionalOrKeyword⟩]
    [("x", .direct (.union [.cls (.cmodel 0), .cls (.cmodel 1)]))]
    (.vdict [("x", .vint 5)]) none (.flag false)

/-- Target with one field `count` declared `int`, receiving the string
`not-an-int`, under a choosable type-check policy. -/
def intFieldInput (policy : Bool) : HydrateInput :=
  mkInput [⟨"self", .positionalOrKeyword⟩, ⟨"count", .positionalOrKeyword⟩]
    [("count", .direct (.cls .cint))]
    (.vdict [("count", .vstr "not-an-int")]) none (.flag policy)

/-- Target with one field `ts` declared `datetime`, receiving a malformed
timestamp string. -/
def datetimeFieldInput : HydrateInput :=
  mkInput [⟨"self", .positionalOrKeyword⟩, ⟨"ts", .positionalOrKeyword⟩]
    [("ts", .direct (.cls .cdatetime))]
    (.vdict [("ts", .vstr "not-a-date")]) none (.flag false)

/-- Target with one field `m` declared as model class 0, receiving a value
that is already an instance of that model class. -/
def modelFieldInput : HydrateInput :=
  mkInput [⟨"self", .positionalOrKeyword⟩, ⟨"m", .positionalOrKeyword⟩]
    [("m", .direct (.cls (.cmodel 0)))]
    (.vdict [("m", .vmodel 0 (.vint 1))]) none (.flag false)

/-- Target whose constructor declares a variadic-positional parameter `args`
(and no `**kwargs`), with the payload binding a two-element list to it. -/
def varargsFieldInput : HydrateInput :=
  mkInput [⟨"self", .positionalOrKeyword⟩, ⟨"args", .varPositional⟩]
    [] (.vdict [("args", .vlist [.vint 1, .vint 2])]) none (.flag false)

/-- Target declaring both `*args` and `**kwargs`, with a payload that does
not name the variadic-positional parameter. -/
def bothVariadicsInput : HydrateInput :=
  mkInput [⟨"self", .positionalOrKeyword⟩, ⟨"args", .varPositional⟩,
      ⟨"kwargs", .varKeyword⟩]
    [] (.vdict [("a", .vint 1)]) none (.flag false)

/-- Target declaring both `*args` and `**kwargs`, with a payload that does
bind the variadic-positional parameter name. -/
def varargsPresentInput : HydrateInput :=
  mkInput [⟨"self", .positionalOrKeyword⟩, ⟨"args", .varPositional⟩,
      ⟨"kwargs", .varKeyword⟩]
    [] (.vdict [("args", .vlist [.vint 1])]) none (.flag false)

/-- Target whose only constructor annotation is a deferred string naming an
unknown type. -/
def deferredUnknownInput : HydrateInput :=
  mkInput [⟨"self", .positionalOrKeyword⟩, ⟨"x", .positionalOrKeyword⟩]
    [("x", .deferred "UnknownModel")]
    (.vdict [("x", .vint 1)]) none (.flag false)

/-- Rename-table scenario: payload key `a` renamed to parameter `b`. -/
def renameWitnessInput : HydrateInput :=
  mkInput [⟨"self", .positionalOrKeyword⟩, ⟨"b", .positionalOrKeyword⟩]
    [] (.vdict [("a", .vint 7)]) (some [("a", "b")]) (.flag false)

/-- Client-injection scenario: a keyword-only `client` parameter, empty
payload, no rename table. -/
def clientWitnessInput : HydrateInput :=
  mkInput [⟨"self", .positionalOrKeyword⟩, ⟨"client", .keywordOnly⟩]
    [] (.vdict []) none (.flag false)

/-- Client-rename scenario: the rename table redirects the `client` key to a
name that is not a parameter. -/
def renameClientInput : HydrateInput :=
  mkInput [⟨"self", .positionalOrKeyword⟩, ⟨"client", .keywordOnly⟩]
    [] (.vdict []) (some [("client", "other")]) (.flag false)

/-- Constructor-error scenario: a single keyword-only field `a` passed
through to a constructor that raises. -/
def ctorErrorInput : HydrateInput :=
  mkInput [⟨"self", .positionalOrKeyword⟩, ⟨"a", .keywordOnly⟩]
    [] (.vdict [("a", .vint 1)]) none (.flag false)

/-- Call semantics of a target constructor `def __init__(self, a, b=None)`:
positional arguments fill `a` then `b` in declaration order, keyword
arguments fill by name, a duplicate value, an unknown keyword or a missing
`a` raises TypeError; the constructed instance records which constructor
parameter received which value. -/
def ctorAB : List PyVal → List (String × PyVal) → Except PyErr PyVal :=
  fun posArgs kwargs =>
    match posArgs with
    | [] =>
      match kwargs.lookup "a" with
      | none => .error (.typeError "missing a required argument: a")
      | some av =>
        if kwargs.all fun e => e.fst = "a" || e.fst = "b" then
          .ok (.vdict [("a", av), ("b", (kwargs.lookup "b").getD .vnone)])
        else .error (.typeError "got an unexpected keyword argument")
    | [av] =>
      if kwargs.any fun e => e.fst = "a" then
        .error (.typeError "got multiple values for argument a")
      else if kwargs.all fun e => e.fst = "b" then
        .ok (.vdict [("a", av), ("b", (kwargs.lookup "b").getD .vnone)])
      else .error (.typeError "got an unexpected keyword argument")
    | [av, bv] =>
      if kwargs.isEmpty then .ok (.vdict [("a", av), ("b", bv)])
      else .error (.typeError "got multiple values or an unexpected keyword argument")
    | _ => .error (.typeError "too many positional arguments")

/-- Rename-shadowing scenario: target `C(self, a, b=None)` with all
positional-or-keyword parameters, rename table sending payload key `a` to
parameter `b`, payload binding only `a`. -/
def c8ShadowInput : HydrateInput :=
  mkInput [⟨"self", .positionalOrKeyword⟩, ⟨"a", .positionalOrKeyword⟩,
      ⟨"b", .positionalOrKeyword⟩]
    [] (.vdict [("a", .vint 7)]) (some [("a", "b")]) (.flag false)

/-- Rename scenario with a keyword-only target parameter: payload key `a`
renamed to the keyword-only parameter `b`. -/
def c8KwOnlyInput : HydrateInput :=
  mkInput [⟨"self", .positionalOrKeyword⟩, ⟨"b", .keywordOnly⟩]
    [] (.vdict [("a", .vint 7)]) (some [("a", "b")]) (.flag false)

theorem lookup_cons_pyval (a k : String) (b : PyVal) (es : List (String × PyVal)) :
    List.lookup a ((k, b) :: es) = if a = k then some b else List.lookup a es := by
  by_cases h : a = k
  · subst h
    simp [List.lookup]
  · simp [List.lookup, beq_eq_false_iff_ne.mpr h, h]

theorem dictSet_lookup_self (d : List (String × PyVal)) (k : String) (v : PyVal) :
    (dictSet d k v).lookup k = some v := by
  induction d with
  | nil => simp [dictSet, lookup_cons_pyval]
  | cons e rest ih =>
    obtain ⟨a, b⟩ := e
    by_cases h : a = k
    · simp [dictSet, h, lookup_cons_pyval]
    · simp only [dictSet, if_neg h]
      rw [lookup_cons_pyval, if_neg (fun hh => h hh.symm)]
      exact ih

theorem dictSet_lookup_ne (d : List (String × PyVal)) (k m : String) (v : PyVal)
    (h : m ≠ k) : (dictSet d k v).lookup m = d.lookup m := by
  induction d with
  | nil => simp [dictSet, List.lookup, beq_eq_false_iff_ne.mpr h]
  | cons e rest ih =>
    obtain ⟨a, b⟩ := e
    by_cases he : a = k
    · subst he
      have hds : dictSet ((a, b) :: rest) a v = (a, v) :: rest := by simp [dictSet]
      rw [hds, lookup_cons_pyval, lookup_cons_pyval]
      simp [h]
    · simp only [dictSet, if_neg he]
      rw [lookup_cons_pyval, lookup_cons_pyval, ih]

theorem processField_no_annot (cfg : FieldCfg) (k renamed : String) (v : PyVal)
    (hA : cfg.annots.lookup renamed = none)
    (hC : cfg.converters.lookup renamed = none) :
    processField cfg k renamed v = .ok v := by
  simp [processField, hA, hC]

theorem receivedParamsGo_no_writer (params : List Param)
    (rename : Option (List (String × String))) (cfg : FieldCfg) (m : String)
    (entries : List (String × PyVal)) :
    ∀ (acc rp : List (String × PyVal)),
    (∀ e ∈ entries, renameKey rename e.fst ≠ m) →
    receivedParamsGo params rename cfg entries acc = .ok rp →
    rp.lookup m = acc.lookup m := by
  induction entries with
  | nil =>
    intro acc rp _ hRun
    simp only [receivedParamsGo] at hRun
    cases hRun
    rfl
  | cons e rest ih =>
    intro acc rp hAll hRun
    obtain ⟨k, v⟩ := e
    have hk : renameKey rename k ≠ m := hAll (k, v) (List.mem_cons_self _ _)
    have hRest : ∀ e ∈ rest, renameKey rename e.fst ≠ m :=
      fun e he => hAll e (List.mem_cons_of_mem _ he)
    simp only [receivedParamsGo] at hRun
    split at hRun
    · cases hPf : processField cfg k (renameKey rename k) v with
      | error e0 => rw [hPf] at hRun; cases hRun
      | ok sv =>
        rw [hPf] at hRun
        have := ih (dictSet acc (renameKey rename k) sv) rp hRest hRun
        rw [this, dictSet_lookup_ne _ _ _ _ (Ne.symm hk)]
    · exact ih acc rp hRest hRun

theorem receivedParamsGo_last_writer (params : List Param)
    (rename : Option (List (String × String))) (cfg : FieldCfg)
    (k0 m : String) (v0 w : PyVal)
    (hRen : renameKey rename k0 = m)
    (hAcc : acceptedCond params m = true)
    (hField : processField cfg k0 m v0 = .ok w)
    (pre : List (String × PyVal)) :
    ∀ (post : List (String × PyVal)) (acc rp : List (String × PyVal)),
    (∀ e ∈ post, renameKey rename e.fst ≠ m) →
    receivedParamsGo params rename cfg (pre ++ (k0, v0) :: post) acc = .ok rp →
    rp.lookup m = some w := by
  induction pre with
  | nil =>
    intro post acc rp hPost hRun
    simp only [List.nil_append, receivedParamsGo, hRen, hAcc, if_true, hField] at hRun
    have := receivedParamsGo_no_writer params rename cfg m post
      (dictSet acc m w) rp hPost hRun
    rw [this, dictSet_lookup_self]
  | cons e pre' ih =>
    intro post acc rp hPost hRun
    obtain ⟨k, v⟩ := e
    simp only [List.cons_append, receivedParamsGo] at hRun
    split at hRun
    · cases hPf : processField cfg k (renameKey rename k) v with
      | error e0 => rw [hPf] at hRun; cases hRun
      | ok sv =>
        rw [hPf] at hRun
        exact ih post _ rp hPost hRun
    · exact ih post acc rp hPost hRun

theorem receivedParamsGo_client_merge (params : List Param)
    (rename : Option (List (String × String))) (cfg : FieldCfg)
    (hRen : renameKey rename "client" = "client")
    (hAnnot : cfg.annots.lookup "client" = none)
    (hConv : cfg.converters.lookup "client" = none)
    (hAcc : acceptedCond params "client" = true)
    (entries : List (String × PyVal)) :
    ∀ (acc rp : List (String × PyVal)),
    (entries.map Prod.fst).Nodup →
    (∀ e ∈ entries, e.fst ≠ "client" → renameKey rename e.fst ≠ "client") →
    receivedParamsGo params rename cfg (dictSet entries "client" .vclient) acc = .ok rp →
    rp.lookup "client" = some .vclient := by
  induction entries with
  | nil =>
    intro acc rp _ _ hRun
    simp only [dictSet, receivedParamsGo, hRen, hAcc, if_true,
      processField_no_annot cfg "client" "client" .vclient hAnnot hConv] at hRun
    cases hRun
    exact dictSet_lookup_self acc "client" .vclient
  | cons e rest ih =>
    intro acc rp hNodup hOthers hRun
    obtain ⟨k, v⟩ := e
    by_cases hk : k = "client"
    · subst hk
      have hds : dictSet (("client", v) :: rest) "client" .vclient =
          ("client", .vclient) :: rest := by
        simp [dictSet]
      rw [hds] at hRun
      simp only [receivedParamsGo, hRen, hAcc, if_true,
        processField_no_annot cfg "client" "client" .vclient hAnnot hConv] at hRun
      have hNotMem : "client" ∉ rest.map Prod.fst :=
        (List.nodup_cons.mp (by simpa using hNodup)).1
      have hRest : ∀ e ∈ rest, renameKey rename e.fst ≠ "client" := by
        intro e he
        have hfst : e.fst ≠ "client" := by
          intro hh
          exact hNotMem (hh ▸ List.mem_map_of_mem Prod.fst he)
        exact hOthers e (List.mem_cons_of_mem _ he) hfst
      have := receivedParamsGo_no_writer params rename cfg "client" rest
        (dictSet acc "client" .vclient) rp hRest hRun
      rw [this, dictSet_lookup_self]
    · have hds : dictSet ((k, v) :: rest) "client" .vclient =
          (k, v) :: dictSet rest "client" .vclient := by
        simp [dictSet, hk]
      rw [hds] at hRun
      have hkren : renameKey rename k ≠ "client" :=
        hOthers (k, v) (List.mem_cons_self _ _) hk
      have hNodup' : (rest.map Prod.fst).Nodup := (List.nodup_cons.mp (by simpa using hNodup)).2
      have hOthers' : ∀ e ∈ rest, e.fst ≠ "client" → renameKey rename e.fst ≠ "client" :=
        fun e he => hOthers e (List.mem_cons_of_mem _ he)
      simp only [receivedParamsGo] at hRun
      split at hRun
      · cases hPf : processField cfg k (renameKey rename k) v with
        | error e0 => rw [hPf] at hRun; cases hRun
        | ok sv =>
          rw [hPf] at hRun
          exact ih _ rp hNodup' hOthers' hRun
      · exact ih acc rp hNodup' hOthers' hRun

theorem bindArgsKw_varpos (params : List Param) (aname : String)
    (hFind : params.find? (fun p => p.name = aname) = some ⟨aname, .varPositional⟩)
    (received : List (String × PyVal)) :
    ∀ (w : PyVal) (posArgs : List PyVal) (kwargs : List (String × PyVal)),
    received.lookup aname = some w →
    bindArgsKw params received posArgs kwargs = .error (.typeError bothVariadicsMsg) := by
  induction received with
  | nil => intro w posArgs kwargs h; simp [List.lookup] at h
  | cons e rest ih =>
    intro w posArgs kwargs hLook
    obtain ⟨k, v⟩ := e
    by_cases hk : aname = k
    · subst hk
      simp [bindArgsKw, hFind]
    · rw [lookup_cons_pyval, if_neg hk] at hLook
      simp only [bindArgsKw]
      repeat' split
      all_goals first
        | rfl
        | exact ih _ _ _ hLook

theorem acceptsKwargs_eq_false (params : List Param)
    (h : ∀ p ∈ params, p.kind ≠ ParamKind.varKeyword) :
    acceptsKwargs params = false := by
  simp only [acceptsKwargs, List.any_eq_false]
  intro p hp
  cases hk : p.kind <;> simp_all

theorem bindArgsNoKw_no_writer (received : List (String × PyVal)) (m : String)
    (params : List Param) :
    ∀ (posAcc : List PyVal) (kwAcc : List (String × PyVal))
      (pa : List PyVal) (kw : List (String × PyVal)),
    (∀ p ∈ params, p.kind ≠ ParamKind.varKeyword) →
    (∀ p ∈ params, p.name = m → p.kind = ParamKind.keywordOnly →
      received.lookup m = none) →
    bindArgsNoKw received params posAcc kwAcc = .ok (pa, kw) →
    kw.lookup m = kwAcc.lookup m := by
  induction params with
  | nil =>
    intro posAcc kwAcc pa kw _ _ hRun
    cases hRun
    rfl
  | cons p rest ih =>
    intro posAcc kwAcc pa kw hNoVK hNoW hRun
    have hNoVK2 : ∀ q ∈ rest, q.kind ≠ ParamKind.varKeyword :=
      fun q hq => hNoVK q (List.mem_cons_of_mem _ hq)
    have hNoW2 : ∀ q ∈ rest, q.name = m → q.kind = ParamKind.keywordOnly →
        received.lookup m = none :=
      fun q hq => hNoW q (List.mem_cons_of_mem _ hq)
    simp only [bindArgsNoKw] at hRun
    cases hLk : received.lookup p.name with
    | none =>
      rw [hLk] at hRun
      exact ih posAcc kwAcc pa kw hNoVK2 hNoW2 hRun
    | some v =>
      rw [hLk] at hRun
      cases hKind : p.kind with
      | positionalOnly =>
        rw [hKind] at hRun
        exact ih _ kwAcc pa kw hNoVK2 hNoW2 hRun
      | positionalOrKeyword =>
        rw [hKind] at hRun
        exact ih _ kwAcc pa kw hNoVK2 hNoW2 hRun
      | varPositional =>
        rw [hKind] at hRun
        replace hRun :
            (if pyIterable v = true then
              match pyIter v with
              | [x] => bindArgsNoKw received rest (posAcc ++ [x]) kwAcc
              | _ => Except.error (PyErr.typeError appendStarMsg)
            else bindArgsNoKw received rest (posAcc ++ [v]) kwAcc) =
              Except.ok (pa, kw) := hRun
        by_cases hIt : pyIterable v = true
        · rw [if_pos hIt] at hRun
          cases hPI : pyIter v with
          | nil => rw [hPI] at hRun; cases hRun
          | cons x xs =>
            cases xs with
            | nil =>
              rw [hPI] at hRun
              exact ih _ kwAcc pa kw hNoVK2 hNoW2 hRun
            | cons y ys => rw [hPI] at hRun; cases hRun
        · rw [if_neg hIt] at hRun
          exact ih _ kwAcc pa kw hNoVK2 hNoW2 hRun
      | varKeyword => exact absurd hKind (hNoVK p (List.mem_cons_self _ _))
      | keywordOnly =>
        rw [hKind] at hRun
        by_cases hName : p.name = m
        · rw [hName] at hLk
          rw [hNoW p (List.mem_cons_self _ _) hName hKind] at hLk
          cases hLk
        · have := ih posAcc (dictSet kwAcc p.name v) pa kw hNoVK2 hNoW2 hRun
          rw [this, dictSet_lookup_ne _ _ _ _ (fun hh => hName hh.symm)]

theorem bindArgsNoKw_last_writer (received : List (String × PyVal)) (m : String)
    (w : PyVal) (hRec : received.lookup m = some w) (ppre : List Param) :
    ∀ (ppost : List Param) (posAcc : List PyVal) (kwAcc : List (String × PyVal))
      (pa : List PyVal) (kw : List (String × PyVal)),
    (∀ p ∈ ppost, p.kind ≠ ParamKind.varKeyword) →
    (∀ p ∈ ppost, p.name ≠ m) →
    bindArgsNoKw received (ppre ++ ⟨m, ParamKind.keywordOnly⟩ :: ppost) posAcc kwAcc =
      .ok (pa, kw) →
    kw.lookup m = some w := by
  induction ppre with
  | nil =>
    intro ppost posAcc kwAcc pa kw hNoVK hPostName hRun
    simp only [List.nil_append, bindArgsNoKw, hRec] at hRun
    have := bindArgsNoKw_no_writer received m ppost posAcc (dictSet kwAcc m w) pa kw
      hNoVK (fun q hq hqn _ => absurd hqn (hPostName q hq)) hRun
    rw [this, dictSet_lookup_self]
  | cons p pre2 ih =>
    intro ppost posAcc kwAcc pa kw hNoVK hPostName hRun
    simp only [List.cons_append, bindArgsNoKw] at hRun
    cases hLk : received.lookup p.name with
    | none =>
      rw [hLk] at hRun
      exact ih ppost posAcc kwAcc pa kw hNoVK hPostName hRun
    | some v =>
      rw [hLk] at hRun
      cases hKind : p.kind with
      | positionalOnly =>
        rw [hKind] at hRun
        exact ih ppost _ kwAcc pa kw hNoVK hPostName hRun
      | positionalOrKeyword =>
        rw [hKind] at hRun
        exact ih ppost _ kwAcc pa kw hNoVK hPostName hRun
      | varPositional =>
        rw [hKind] at hRun
        replace hRun :
            (if pyIterable v = true then
              match pyIter v with
              | [x] =>
                bindArgsNoKw received
                  (pre2 ++ ⟨m, ParamKind.keywordOnly⟩ :: ppost) (posAcc ++ [x]) kwAcc
              | _ => Except.error (PyErr.typeError appendStarMsg)
            else
              bindArgsNoKw received
                (pre2 ++ ⟨m, ParamKind.keywordOnly⟩ :: ppost) (posAcc ++ [v]) kwAcc) =
              Except.ok (pa, kw) := hRun
        by_cases hIt : pyIterable v = true
        · rw [if_pos hIt] at hRun
          cases hPI : pyIter v with
          | nil => rw [hPI] at hRun; cases hRun
          | cons x xs =>
            cases xs with
            | nil =>
              rw [hPI] at hRun
              exact ih ppost _ kwAcc pa kw hNoVK hPostName hRun
            | cons y ys => rw [hPI] at hRun; cases hRun
        · rw [if_neg hIt] at hRun
          exact ih ppost _ kwAcc pa kw hNoVK hPostName hRun
      | varKeyword =>
        rw [hKind] at hRun
        cases v with
        | vdict es => exact ih ppost posAcc (kwargsUpdate kwAcc es) pa kw hNoVK hPostName hRun
        | vnone => exact ih ppost posAcc _ pa kw hNoVK hPostName hRun
        | vbool b => exact ih ppost posAcc _ pa kw hNoVK hPostName hRun
        | vint n => exact ih ppost posAcc _ pa kw hNoVK hPostName hRun
        | vstr s2 => exact ih ppost posAcc _ pa kw hNoVK hPostName hRun
        | vdatetime s2 => exact ih ppost posAcc _ pa kw hNoVK hPostName hRun
        | vlist xs => exact ih ppost posAcc _ pa kw hNoVK hPostName hRun
        | vmodel c d => exact ih ppost posAcc _ pa kw hNoVK hPostName hRun
        | vclient => exact ih ppost posAcc _ pa kw hNoVK hPostName hRun
      | keywordOnly =>
        rw [hKind] at hRun
        exact ih ppost posAcc _ pa kw hNoVK hPostName hRun

/-- Claim C1, behaviour of the code at the failing input: for a field whose
declared type is a union of two hydratable model classes and whose value
matches no candidate, hydration neither defers nor raises DataParseError with
the last structural failure chained; it crashes with an uncaught IndexError,
because `_default_converters` indexes `typing.get_args` of the plain model
class candidate (an empty tuple) through `_safe_index`, which only suppresses
TypeError. -/
theorem c1_union_of_models_raises_indexerror :
    hydrate failHyd kwEchoCtor unionFieldInput =
      .error (.indexError "tuple index out of range") := rfl

/-- Claim C2, behaviour of the code at the failing input: a field declared
`int` receiving the string `not-an-int` reaches neither the
TypeMismatchError of the all-fields policy nor the silent pass-through of the
off policy; under both policies hydration crashes with the same uncaught
IndexError before the type check is ever evaluated. -/
theorem c2_type_check_policies_both_crash :
    hydrate failHyd kwEchoCtor (intFieldInput true) =
        .error (.indexError "tuple index out of range") ∧
    hydrate failHyd kwEchoCtor (intFieldInput false) =
        .error (.indexError "tuple index out of range") :=
  ⟨rfl, rfl⟩

/-- Claim C3, behaviour of the code at the failing input: a variadic-
positional parameter bound to an ordered two-element sequence is not spread;
`pos_args.append(*received_val)` raises TypeError because `list.append` takes
exactly one argument, and the error propagates out of hydration unwrapped. -/
theorem c3_varargs_spread_raises_typeerror :
    hydrate failHyd kwEchoCtor varargsFieldInput =
      .error (.typeError appendStarMsg) := rfl

/-- Claim C4: when a deferred (string) annotation on the target's constructor
cannot be evaluated against the merged name environment, hydration fails with
the resolution error (the uncaught NameError from `eval`, the engine's
type-resolution failure), independently of the nested hydration oracle and of
the constructor, which is never invoked: the call aborts immediately. -/
theorem c4_deferred_unknown_name_aborts (inp : HydrateInput)
    (entries : List (String × PyVal)) (n : String)
    (hJson : inp.jsonData = .vdict entries)
    (hEval : evalAnnotations (mkNameEnv inp) inp.rawAnnots = .error (.nameError n)) :
    ∀ (hyd : Nat → PyVal → Except PyErr PyVal)
      (ctor : List PyVal → List (String × PyVal) → Except PyErr PyVal),
      hydrate hyd ctor inp = .error (.nameError n) := by
  intro hyd ctor
  simp [hydrate, hJson, hEval]

/-- Witness for C4 at a concrete input: an annotation deferring to the
unknown name `UnknownModel` aborts hydration with that NameError. -/
theorem c4_deferred_unknown_name_aborts_witness :
    hydrate failHyd kwEchoCtor deferredUnknownInput =
      .error (.nameError "UnknownModel") :=
  c4_deferred_unknown_name_aborts deferredUnknownInput
    [("x", .vint 1)] "UnknownModel" rfl rfl failHyd kwEchoCtor

/-- Counterexample to claim C5: a target declaring both a
variadic-positional and a variadic-keyword parameter is hydrated without any
error when the payload does not bind the variadic-positional name — the
constructor is called and succeeds, so the conflict is not detected at the
target level. -/
theorem c5_both_variadics_no_error_counterexample :
    hydrate failHyd kwEchoCtor bothVariadicsInput =
      .ok (.vdict [("a", .vint 1), ("client", .vclient)]) := rfl

/-- Claim C5 as amended: the conflict between a variadic-positional and a
variadic-keyword parameter is detected per field, not at the target level:
the fatal TypeError is raised exactly when some received (post-rename) key
names the variadic-positional parameter while `**kwargs` is declared. -/
theorem c5_variadic_conflict_detected_per_field (inp : HydrateInput)
    (entries : List (String × PyVal)) (annots : List (String × PyAnnot))
    (rp : List (String × PyVal))
    (hyd : Nat → PyVal → Except PyErr PyVal) (aname : String) (w : PyVal)
    (hJson : inp.jsonData = .vdict entries)
    (hEval : evalAnnotations (mkNameEnv inp) inp.rawAnnots = .ok annots)
    (hRun : receivedParamsGo inp.params inp.rename (hydrateCfg hyd inp annots)
        (fullReceivingData entries) [] = .ok rp)
    (hKw : acceptsKwargs inp.params = true)
    (hFind : inp.params.find? (fun p => p.name = aname) =
        some ⟨aname, .varPositional⟩)
    (hMem : rp.lookup aname = some w) :
    ∀ (ctor : List PyVal → List (String × PyVal) → Except PyErr PyVal),
      hydrate hyd ctor inp = .error (.typeError bothVariadicsMsg) := by
  intro ctor
  have hBind := bindArgsKw_varpos inp.params aname hFind rp w [] [] hMem
  simp [hydrate, hJson, hEval, hRun, bindArgs, hKw, hBind]

/-- Witness for the amended C5 at a concrete input: with both variadics
declared and the payload binding `args`, hydration raises the TypeError. -/
theorem c5_variadic_conflict_detected_per_field_witness :
    hydrate failHyd kwEchoCtor varargsPresentInput =
      .error (.typeError bothVariadicsMsg) :=
  c5_variadic_conflict_detected_per_field varargsPresentInput
    [("args", .vlist [.vint 1])] [] [("args", .vlist [.vint 1]), ("client", .vclient)]
    failHyd "args" (.vlist [.vint 1]) rfl rfl rfl rfl rfl rfl kwEchoCtor

/-- Claim C6, behaviour of the code at the failing input: a field declared
`datetime` receiving the malformed string `not-a-date` does not raise
DataParseError with the parse error chained; hydration crashes with the
uncaught IndexError before `_parse_datetime_from_json_iso_str` is ever
reached (`typing.get_args(datetime)` is empty). -/
theorem c6_datetime_field_raises_indexerror :
    hydrate failHyd kwEchoCtor datetimeFieldInput =
      .error (.indexError "tuple index out of range") := rfl

/-- Claim C7, behaviour of the code at the failing input: a field declared as
a nested-model class whose raw value is already an instance of that class is
not passed through unchanged; hydration crashes with the uncaught IndexError
before the instance test of the direct-model branch is evaluated. -/
theorem c7_already_hydrated_value_raises_indexerror :
    hydrate failHyd kwEchoCtor modelFieldInput =
      .error (.indexError "tuple index out of range") := rfl

/-- Counterexample to claim C8: an input key `k` that is also a valid
constructor parameter name can end up bound to the parameter `k` itself.
Target `C(self, a, b=None)` with rename `a` to `b` and payload binding only
`a`: the renamed value is stored under `b` in the received-parameter map, but
the binder passes positional-or-keyword values positionally in declaration
order (source lines 625-626), so with `a` missing the single positional
argument lands on parameter `a` — the value is bound under `k`, not under the
renamed name. -/
theorem c8_rename_shadow_counterexample :
    hydrate failHyd ctorAB c8ShadowInput =
      .ok (.vdict [("a", .vint 7), ("b", .vnone)]) := rfl

/-- Claim C8 as amended: for a rename table `R` and an input key `k` present
in `R`, the per-field loop stores the converted value in the
received-parameter map under `R k` and never under `k` (hypotheses pin down
the scenario: the renamed name is accepted, the field processes successfully,
no later entry also renames to `R k`, and no entry renames to `k`).  The
binder then delivers the value to the constructor parameter bearing the
renamed name only where binding is by name: when the parameter named `R k` is
keyword-only (on a target without variadic-keyword parameters and with no
later parameter sharing the name), the constructor call receives the value as
the keyword argument `R k` and receives no keyword argument named `k`;
positional-or-keyword parameters are instead consumed positionally, which can
re-route the value (see the counterexample). -/
theorem c8_rename_binds_renamed_key_amended (inp : HydrateInput)
    (R : List (String × String))
    (entries pre post : List (String × PyVal)) (k m : String) (v w : PyVal)
    (annots : List (String × PyAnnot)) (rp : List (String × PyVal))
    (posArgs : List PyVal) (kwargs : List (String × PyVal))
    (ppre ppost : List Param)
    (hyd : Nat → PyVal → Except PyErr PyVal)
    (hJson : inp.jsonData = .vdict entries)
    (hRename : inp.rename = some R)
    (hEval : evalAnnotations (mkNameEnv inp) inp.rawAnnots = .ok annots)
    (hRun : receivedParamsGo inp.params inp.rename (hydrateCfg hyd inp annots)
        (fullReceivingData entries) [] = .ok rp)
    (hSplit : fullReceivingData entries = pre ++ (k, v) :: post)
    (hRk : R.lookup k = some m)
    (hAccept : acceptedCond inp.params m = true)
    (hField : processField (hydrateCfg hyd inp annots) k m v = .ok w)
    (hPost : ∀ e ∈ post, renameKey (some R) e.fst ≠ m)
    (hNoK : ∀ e ∈ fullReceivingData entries, renameKey (some R) e.fst ≠ k)
    (hParams : inp.params = ppre ++ ⟨m, ParamKind.keywordOnly⟩ :: ppost)
    (hNoVK : ∀ p ∈ inp.params, p.kind ≠ ParamKind.varKeyword)
    (hPostName : ∀ p ∈ ppost, p.name ≠ m)
    (hBind : bindArgs inp.params rp = .ok (posArgs, kwargs)) :
    rp.lookup m = some w ∧ rp.lookup k = none ∧
    kwargs.lookup m = some w ∧ kwargs.lookup k = none ∧
    ∀ (ctor : List PyVal → List (String × PyVal) → Except PyErr PyVal),
      hydrate hyd ctor inp = constructTarget ctor posArgs kwargs := by
  have hRen : renameKey (some R) k = m := by simp [renameKey, hRk]
  rw [hRename] at hRun
  have hRpM : rp.lookup m = some w :=
    receivedParamsGo_last_writer inp.params (some R) (hydrateCfg hyd inp annots)
      k m v w hRen hAccept hField pre post [] rp hPost (by rw [← hSplit]; exact hRun)
  have hRpK : rp.lookup k = none := by
    have := receivedParamsGo_no_writer inp.params (some R) (hydrateCfg hyd inp annots)
      k (fullReceivingData entries) [] rp hNoK hRun
    simpa [List.lookup] using this
  have hAkw : acceptsKwargs inp.params = false := acceptsKwargs_eq_false inp.params hNoVK
  have hBind2 : bindArgsNoKw rp inp.params [] [] = .ok (posArgs, kwargs) := by
    rw [bindArgs, hAkw] at hBind
    simpa using hBind
  have hNoVKpost : ∀ p ∈ ppost, p.kind ≠ ParamKind.varKeyword := by
    intro p hp
    exact hNoVK p (by rw [hParams]; exact List.mem_append_right _ (List.mem_cons_of_mem _ hp))
  have hKwM : kwargs.lookup m = some w := by
    apply bindArgsNoKw_last_writer rp m w hRpM ppre ppost [] [] posArgs kwargs
      hNoVKpost hPostName
    rw [← hParams]
    exact hBind2
  have hKwK : kwargs.lookup k = none := by
    have := bindArgsNoKw_no_writer rp k inp.params [] [] posArgs kwargs hNoVK
      (fun p _ _ _ => hRpK) hBind2
    simpa [List.lookup] using this
  refine ⟨hRpM, hRpK, hKwM, hKwK, ?_⟩
  intro ctor
  simp [hydrate, hJson, hEval, hRename, hRun, hBind]

/-- Witness for the amended C8 at a concrete input: payload key `a` renamed
to the keyword-only parameter `b` binds the value 7 under `b` — in the
received-parameter map and in the constructor keyword arguments — and nothing
under `a`. -/
theorem c8_rename_binds_renamed_key_amended_witness :
    ([("b", PyVal.vint 7)] : List (String × PyVal)).lookup "b" = some (.vint 7) ∧
    ([("b", PyVal.vint 7)] : List (String × PyVal)).lookup "a" = none ∧
    hydrate failHyd kwEchoCtor c8KwOnlyInput =
      constructTarget kwEchoCtor [] [("b", PyVal.vint 7)] := by
  have h := c8_rename_binds_renamed_key_amended c8KwOnlyInput [("a", "b")]
    [("a", .vint 7)] [] [("client", .vclient)] "a" "b" (.vint 7) (.vint 7)
    [] [("b", .vint 7)] [] [("b", .vint 7)]
    [⟨"self", .positionalOrKeyword⟩] [] failHyd
    rfl rfl rfl rfl rfl rfl rfl rfl (by decide) (by decide) rfl (by decide)
    (by decide) rfl
  exact ⟨h.1, h.2.1, h.2.2.2.2 kwEchoCtor⟩

/-- Counterexample to claim C9: with a rename table that redirects the
`client` key, the constructor parameter named `client` does not receive the
live client handle — hydration succeeds with an empty keyword binding, so
nothing was bound to `client` at all. -/
theorem c9_rename_diverts_client_counterexample :
    hydrate failHyd kwEchoCtor renameClientInput = .ok (.vdict []) := rfl

/-- Claim C9 as amended: the synthetic client entry is merged over the
payload, so the merged receiving dict always maps the key `client` to the
live handle, overriding any payload value under that key.  The per-field loop
then binds the name `client` to the live handle provided: the payload has no
duplicate keys (as for any Python dict), the rename table neither redirects
the `client` key nor renames another payload key to `client`, the name
`client` carries no type annotation (an annotated client parameter instead
crashes in `_default_converters` with the IndexError of claims C2/C6/C7) and
no custom converter (a converter would bind its converted output, not the
handle), and the target accepts the name `client` (it is a parameter, or
`**kwargs` is declared). -/
theorem c9_client_injection_amended (params : List Param)
    (rename : Option (List (String × String))) (cfg : FieldCfg)
    (entries rp : List (String × PyVal))
    (hNodup : (entries.map Prod.fst).Nodup)
    (hRen : renameKey rename "client" = "client")
    (hOthers : ∀ e ∈ entries, e.fst ≠ "client" → renameKey rename e.fst ≠ "client")
    (hAnnot : cfg.annots.lookup "client" = none)
    (hConv : cfg.converters.lookup "client" = none)
    (hAcc : acceptedCond params "client" = true)
    (hRun : receivedParamsGo params rename cfg (fullReceivingData entries) [] = .ok rp) :
    (fullReceivingData entries).lookup "client" = some .vclient ∧
    rp.lookup "client" = some .vclient := by
  constructor
  · exact dictSet_lookup_self entries "client" .vclient
  · exact receivedParamsGo_client_merge params rename cfg hRen hAnnot hConv hAcc
      entries [] rp hNodup hOthers hRun

/-- Witness for the amended C9 at a concrete input: with no rename table and
a `client` parameter, the received-parameter map binds `client` to the live
handle. -/
theorem c9_client_injection_amended_witness :
    (fullReceivingData ([] : List (String × PyVal))).lookup "client" =
        some PyVal.vclient ∧
    ([("client", PyVal.vclient)] : List (String × PyVal)).lookup "client" =
        some PyVal.vclient :=
  c9_client_injection_amended
    [⟨"self", .positionalOrKeyword⟩, ⟨"client", .keywordOnly⟩] none
    (hydrateCfg failHyd clientWitnessInput []) [] [("client", .vclient)]
    (by simp) rfl (by simp) rfl rfl rfl rfl

/-- Claim C10: when the earlier phases succeed and the constructor itself
fails, hydration wraps the failure: TypeError and ValueError become
APIJsonParsedTypeMismatchException with the constructor error chained as
cause, and AttributeError becomes APIJsonParseException with it as cause;
none of these constructor errors leaves `hydrate` unwrapped. -/
theorem c10_constructor_errors_wrapped (inp : HydrateInput)
    (entries : List (String × PyVal)) (annots : List (String × PyAnnot))
    (rp : List (String × PyVal)) (posArgs : List PyVal)
    (kwargs : List (String × PyVal))
    (hyd : Nat → PyVal → Except PyErr PyVal)
    (hJson : inp.jsonData = .vdict entries)
    (hEval : evalAnnotations (mkNameEnv inp) inp.rawAnnots = .ok annots)
    (hRun : receivedParamsGo inp.params inp.rename (hydrateCfg hyd inp annots)
        (fullReceivingData entries) [] = .ok rp)
    (hBind : bindArgs inp.params rp = .ok (posArgs, kwargs)) :
    (∀ (ctor : List PyVal → List (String × PyVal) → Except PyErr PyVal)
        (m : String), ctor posArgs kwargs = .error (.typeError m) →
        hydrate hyd ctor inp =
          .error (.apiTypeMismatch ctorFailMsg (some (.typeError m)))) ∧
    (∀ (ctor : List PyVal → List (String × PyVal) → Except PyErr PyVal)
        (m : String), ctor posArgs kwargs = .error (.valueError m) →
        hydrate hyd ctor inp =
          .error (.apiTypeMismatch ctorFailMsg (some (.valueError m)))) ∧
    (∀ (ctor : List PyVal → List (String × PyVal) → Except PyErr PyVal)
        (m : String), ctor posArgs kwargs = .error (.attributeError m) →
        hydrate hyd ctor inp =
          .error (.apiJsonParse ctorFailMsg (some (.attributeError m)))) := by
  refine ⟨?_, ?_, ?_⟩ <;> intro ctor m hC <;>
    simp [hydrate, hJson, hEval, hRun, hBind, constructTarget, hC]

/-- Witness for C10 at a concrete input: a constructor raising TypeError
surfaces as APIJsonParsedTypeMismatchException with the TypeError as cause. -/
theorem c10_constructor_errors_wrapped_witness :
    hydrate failHyd (fun _ _ => .error (.typeError "boom")) ctorErrorInput =
      .error (.apiTypeMismatch ctorFailMsg (some (.typeError "boom"))) :=
  (c10_constructor_errors_wrapped ctorErrorInput [("a", .vint 1)] []
    [("a", .vint 1)] [] [("a", .vint 1)] failHyd rfl rfl rfl rfl).1
    (fun _ _ => .error (.typeError "boom")) "boom" rfl
